import Mathlib

set_option linter.unusedVariables false

/-!
Verification of `ionping.py`, a concurrent ICMP liveness sweeper.

The Python source is shallowly embedded: byte strings become `List Nat`
(each element a byte value below 256), machine arithmetic is `Nat` with
explicit `% 2 ^ w`, Python exceptions become `Except`, and the
producer/consumer writer thread becomes an explicit transition system.
-/

namespace IonPing

/-- Source constant `_ECHO_REQ = 8` (ICMP Echo Request type). -/
def _ECHO_REQ : Nat := 8

/-- Source constant `_default_timeout = 2.0` (seconds, exact as a rational). -/
def default_timeout : ℚ := 2

/-- Big-endian packing of one `H` (unsigned 16-bit) field of
`struct.pack("!BBHHH", ...)` into two bytes.  For the in-range values the
program uses (`struct` raises `struct.error` outside `[0, 65535]`) this is
`[x / 256, x % 256]`. -/
def packH (x : Nat) : List Nat := [x / 256 % 256, x % 256]

/-- Packing of one `B` (unsigned 8-bit) field; in range it is the identity. -/
def packB (x : Nat) : Nat := x % 256

/-- The 8-byte ICMP echo header `struct.pack("!BBHHH", typ, code, cks, id, seq)`. -/
def icmpHeaderBytes (typ code cks icmpId seqNum : Nat) : List Nat :=
  packB typ :: packB code :: (packH cks ++ packH icmpId ++ packH seqNum)

/-- The 16-bit big-endian words `(payload[i] << 8) + payload[i + 1]` read by the
checksum loop `for i in range(0, len(payload), 2)` in `ICMP_ECHO.__init__`
(lines 66-67).  On an even-length buffer this is exactly the sequence of words
the loop reads; on an odd-length buffer the loop's final iteration indexes one
byte past the end of the buffer (that out-of-bounds access is analysed
separately by `checksumLoopIndices`). -/
def toWords : List Nat → List Nat
  | b1 :: b2 :: rest => (b1 * 256 + b2) :: toWords rest
  | _ => []

/-- One iteration of the checksum accumulation (lines 68-69):
`checksum += word; checksum = (checksum & 0xffff) + (checksum >> 16)`. -/
def foldStep (acc w : Nat) : Nat := (acc + w) % 65536 + (acc + w) / 65536

/-- The whole checksum loop of `ICMP_ECHO.__init__` over a word list. -/
def checksumFold (ws : List Nat) : Nat := ws.foldl foldStep 0

/-- Line 70, `~checksum & 0xffff`: Python's `~` on a nonnegative int gives
`-(c + 1)`, and masking that with `0xffff` yields `65535 - c % 65536`. -/
def onesComplement16 (c : Nat) : Nat := 65535 - c % 65536

/-- The `ICMP_ECHO` object of the source: constructor arguments plus the
derived `checksum`, `header` and `payload` attributes. -/
structure ICMP_ECHO where
  icmp_id : Nat
  sequence : Nat
  data : List Nat
  checksum : Nat
  header : List Nat
  payload : List Nat
deriving DecidableEq, Repr

/-- Constructor `ICMP_ECHO.__init__` (lines 59-73): pack the header with a zero checksum
field, run the checksum loop over header plus data, complement the folded sum,
and repack the header with the real checksum; the `payload` attribute is the
final header followed by the data. -/
def ICMP_ECHO.make (icmp_id : Nat := 0) (sequence : Nat := 0)
    (data : List Nat := []) : ICMP_ECHO :=
  let icmp_header := icmpHeaderBytes _ECHO_REQ 0 0 icmp_id sequence
  let checksum := onesComplement16 (checksumFold (toWords (icmp_header ++ data)))
  let header := icmpHeaderBytes _ECHO_REQ 0 checksum icmp_id sequence
  { icmp_id := icmp_id, sequence := sequence, data := data,
    checksum := checksum, header := header, payload := header ++ data }

/-- The parsed `(type, code, checksum, id, seq)` of
`struct.unpack("!BBHHH", icmp_response)` in `validate_echo_response`
(line 90). -/
structure EchoReply where
  type : Nat
  code : Nat
  checksum : Nat
  id : Nat
  seq : Nat
deriving DecidableEq, Repr

/-- Unpacking `struct.unpack("!BBHHH", b)`: succeeds only on exactly 8 bytes
(`struct.error` otherwise, modelled as `none`). -/
def parseEchoReply (b : List Nat) : Option EchoReply :=
  match b with
  | [b0, b1, b2, b3, b4, b5, b6, b7] =>
      some ⟨b0, b1, b2 * 256 + b3, b4 * 256 + b5, b6 * 256 + b7⟩
  | _ => none

/-- Function `validate_echo_response(icmp_response, icmp_id, address)` (lines 89-94):
unpack the 8-byte header and return whether `type == 0 and code == 0 and
id == icmp_id`.  The `address` argument is accepted but never used by the
source.  `none` models the `struct.error` raised on a buffer that is not
exactly 8 bytes long. -/
def validate_echo_response (icmp_response : List Nat) (icmp_id : Nat)
    (address : String) : Option Bool :=
  match parseEchoReply icmp_response with
  | some r => some (r.type == 0 && r.code == 0 && r.id == icmp_id)
  | none => none

/-- Independent verifier for the checksum law, following the spec's words
("one's-complement 16-bit-word summation with end-around carry folding"):
add up all words as an unbounded natural, then repeatedly fold the carry
back in until the sum fits in 16 bits. -/
def foldCarry (s : Nat) : Nat :=
  if h : s < 65536 then s else foldCarry (s % 65536 + s / 65536)
termination_by s
decreasing_by omega

/-- Independent one's-complement summation over a whole byte buffer. -/
def verifySum (buf : List Nat) : Nat := foldCarry (toWords buf).sum

/-- The indices `i` visited by `range(0, n, 2)` for a buffer of `n` bytes. -/
def pyRangeStep2 (n : Nat) : List Nat := (List.range ((n + 1) / 2)).map (· * 2)

/-- The loop indices of the checksum loop of `ICMP_ECHO.__init__` run on the
8-byte header followed by `data`. -/
def checksumLoopIndices (data : List Nat) : List Nat := pyRangeStep2 (8 + data.length)

/-! ### Checksum arithmetic lemmas -/

theorem foldStep_le {acc w : Nat} (ha : acc ≤ 65535) (hw : w ≤ 65535) :
    foldStep acc w ≤ 65535 := by
  unfold foldStep; omega

theorem foldStep_pos {acc w : Nat} (ha : 1 ≤ acc) (ha' : acc ≤ 65535)
    (hw : w ≤ 65535) : 1 ≤ foldStep acc w := by
  unfold foldStep; omega

theorem foldStep_modEq (acc w : Nat) : foldStep acc w ≡ acc + w [MOD 65535] := by
  unfold foldStep Nat.ModEq; omega

theorem checksumFold_go_le :
    ∀ (ws : List Nat) (acc : Nat), acc ≤ 65535 → (∀ w ∈ ws, w ≤ 65535) →
      ws.foldl foldStep acc ≤ 65535 := by
  intro ws
  induction ws with
  | nil => intro acc ha _; simpa using ha
  | cons w ws ih =>
      intro acc ha hws
      simp only [List.foldl_cons]
      exact ih _ (foldStep_le ha (hws w (by simp))) fun x hx => hws x (by simp [hx])

theorem checksumFold_go_pos :
    ∀ (ws : List Nat) (acc : Nat), 1 ≤ acc → acc ≤ 65535 → (∀ w ∈ ws, w ≤ 65535) →
      1 ≤ ws.foldl foldStep acc := by
  intro ws
  induction ws with
  | nil => intro acc h1 _ _; simpa using h1
  | cons w ws ih =>
      intro acc h1 ha hws
      simp only [List.foldl_cons]
      exact ih _ (foldStep_pos h1 ha (hws w (by simp)))
        (foldStep_le ha (hws w (by simp))) fun x hx => hws x (by simp [hx])

theorem checksumFold_go_modEq :
    ∀ (ws : List Nat) (acc : Nat), ws.foldl foldStep acc ≡ acc + ws.sum [MOD 65535] := by
  intro ws
  induction ws with
  | nil => intro acc; simp [Nat.ModEq]
  | cons w ws ih =>
      intro acc
      simp only [List.foldl_cons, List.sum_cons]
      calc (ws.foldl foldStep (foldStep acc w)) ≡ foldStep acc w + ws.sum [MOD 65535] := ih _
        _ ≡ (acc + w) + ws.sum [MOD 65535] := Nat.ModEq.add_right _ (foldStep_modEq acc w)
        _ = acc + (w + ws.sum) := by ring

theorem foldCarry_lt (s : Nat) : foldCarry s < 65536 := by
  induction s using foldCarry.induct with
  | case1 s h => rw [foldCarry, dif_pos h]; exact h
  | case2 s h ih => rw [foldCarry, dif_neg h]; exact ih

theorem foldCarry_modEq (s : Nat) : foldCarry s ≡ s [MOD 65535] := by
  induction s using foldCarry.induct with
  | case1 s h => rw [foldCarry, dif_pos h]
  | case2 s h ih =>
      rw [foldCarry, dif_neg h]
      refine ih.trans ?_
      unfold Nat.ModEq
      omega

theorem foldCarry_pos {s : Nat} (h : 1 ≤ s) : 1 ≤ foldCarry s := by
  induction s using foldCarry.induct with
  | case1 s hlt => rw [foldCarry, dif_pos hlt]; exact h
  | case2 s hlt ih =>
      rw [foldCarry, dif_neg hlt]
      exact ih (by omega)

theorem toWords_le : ∀ (buf : List Nat), (∀ b ∈ buf, b < 256) →
    ∀ w ∈ toWords buf, w ≤ 65535
  | [] => by intro _ w hw; simp [toWords] at hw
  | [b] => by intro _ w hw; simp [toWords] at hw
  | b1 :: b2 :: rest => by
      intro hb w hw
      rw [toWords] at hw
      rcases List.mem_cons.mp hw with h | h
      · have h1 : b1 < 256 := hb b1 (by simp)
        have h2 : b2 < 256 := hb b2 (by simp)
        omega
      · exact toWords_le rest (fun b hb' => hb b (by simp [hb'])) w h

theorem toWords_icmpHeaderBytes (t c k i s : Nat) (data : List Nat) :
    toWords (icmpHeaderBytes t c k i s ++ data) =
      ((t % 256) * 256 + c % 256) :: (k % 65536) :: (i % 65536) :: (s % 65536)
        :: toWords data := by
  simp only [icmpHeaderBytes, packB, packH, List.cons_append, List.append_assoc,
    List.nil_append]
  rw [toWords, toWords, toWords, toWords]
  simp only [List.cons.injEq, eq_self_iff_true, and_true, true_and]
  omega

theorem foldCarry_eq_ffff {t : Nat} (hpos : 1 ≤ t) (hmod : t % 65535 = 0) :
    foldCarry t = 65535 := by
  have h1 := foldCarry_lt t
  have h2 := foldCarry_modEq t
  have h3 := foldCarry_pos hpos
  simp only [Nat.ModEq] at h2
  omega

theorem checksumFold_le {ws : List Nat} (h : ∀ w ∈ ws, w ≤ 65535) :
    checksumFold ws ≤ 65535 :=
  checksumFold_go_le ws 0 (by omega) h

theorem checksumFold_modEq (ws : List Nat) : checksumFold ws ≡ ws.sum [MOD 65535] := by
  have := checksumFold_go_modEq ws 0
  simpa [checksumFold] using this

/-- Every word of the final request buffer (and of the zero-checksum buffer)
is at most `65535`, provided the constructor arguments are in range. -/
theorem echoWords_le {icmp_id seqn k : Nat} {data : List Nat}
    (hid : icmp_id ≤ 65535) (hseq : seqn ≤ 65535) (hk : k ≤ 65535)
    (hb : ∀ b ∈ data, b < 256) :
    ∀ w ∈ (2048 :: k :: icmp_id :: seqn :: toWords data), w ≤ 65535 := by
  intro w hw
  simp only [List.mem_cons] at hw
  rcases hw with rfl | rfl | rfl | rfl | h
  · omega
  · exact hk
  · exact hid
  · exact hseq
  · exact toWords_le data hb w h

/-- Claim C1: for every identifier and sequence number in `[0, 65535]` and
every even-length byte payload, the packet built by `ICMP_ECHO` — the 8-byte
header carrying the computed checksum, followed by the payload — sums to
`0xFFFF` under an independent one's-complement 16-bit-word summation with
end-around carry folding over the entire buffer, checksum field included. -/
theorem checksum_self_consistency (icmp_id seqn : Nat) (data : List Nat)
    (hid : icmp_id ≤ 65535) (hseq : seqn ≤ 65535)
    (heven : data.length % 2 = 0) (hb : ∀ b ∈ data, b < 256) :
    verifySum (ICMP_ECHO.make icmp_id seqn data).payload = 65535 := by
  clear heven
  have hwords0 : toWords (icmpHeaderBytes _ECHO_REQ 0 0 icmp_id seqn ++ data) =
      2048 :: 0 :: icmp_id :: seqn :: toWords data := by
    rw [toWords_icmpHeaderBytes]
    simp only [_ECHO_REQ, List.cons.injEq, eq_self_iff_true, and_true, true_and]
    omega
  have hall0 := echoWords_le (k := 0) hid hseq (by omega) hb
  have hS_le : checksumFold (2048 :: 0 :: icmp_id :: seqn :: toWords data) ≤ 65535 :=
    checksumFold_le hall0
  have hS_pos : 1 ≤ checksumFold (2048 :: 0 :: icmp_id :: seqn :: toWords data) := by
    have h2048 : foldStep 0 2048 = 2048 := by norm_num [foldStep]
    have : checksumFold (2048 :: 0 :: icmp_id :: seqn :: toWords data) =
        (0 :: icmp_id :: seqn :: toWords data).foldl foldStep 2048 := by
      simp [checksumFold, h2048]
    rw [this]
    refine checksumFold_go_pos _ 2048 (by norm_num) (by norm_num) ?_
    intro w hw
    exact hall0 w (by simp only [List.mem_cons] at hw ⊢; tauto)
  have hS_mod := checksumFold_modEq (2048 :: 0 :: icmp_id :: seqn :: toWords data)
  set S := checksumFold (2048 :: 0 :: icmp_id :: seqn :: toWords data) with hS
  have hpayload : (ICMP_ECHO.make icmp_id seqn data).payload =
      icmpHeaderBytes _ECHO_REQ 0 (onesComplement16 S) icmp_id seqn ++ data := by
    simp only [ICMP_ECHO.make, hwords0, hS]
  rw [verifySum, hpayload, toWords_icmpHeaderBytes]
  apply foldCarry_eq_ffff
  · simp only [List.sum_cons, _ECHO_REQ]
    omega
  · simp only [List.sum_cons, _ECHO_REQ, onesComplement16] at hS_mod ⊢
    simp only [Nat.ModEq] at hS_mod
    generalize hz : (toWords data).sum = z at hS_mod ⊢
    omega

/-- Witness for C1 at identifier 1, sequence 2, payload `[0xDE, 0xAD]`. -/
theorem checksum_self_consistency_witness :
    (([222, 173] : List Nat)).length % 2 = 0 ∧
    verifySum (ICMP_ECHO.make 1 2 [222, 173]).payload = 65535 :=
  ⟨by decide, checksum_self_consistency 1 2 [222, 173] (by decide) (by decide)
    (by decide) (by decide)⟩

/-- Claim C8: unpacking the 8-byte header of the Echo Request built with an
empty payload recovers exactly the identifier and sequence number supplied at
construction, for every identifier and sequence number in `[0, 65535]`. -/
theorem echo_roundtrip (icmp_id seqn : Nat) (hid : icmp_id ≤ 65535)
    (hseq : seqn ≤ 65535) :
    (parseEchoReply (ICMP_ECHO.make icmp_id seqn []).payload).map EchoReply.id
        = some icmp_id ∧
    (parseEchoReply (ICMP_ECHO.make icmp_id seqn []).payload).map EchoReply.seq
        = some seqn := by
  simp only [ICMP_ECHO.make, _ECHO_REQ, icmpHeaderBytes, packB, packH,
    List.cons_append, List.nil_append, List.append_nil, parseEchoReply,
    Option.map_some']
  constructor <;> · simp only [Option.some.injEq]; omega

/-- Witness for C8 at identifier 513 and sequence number 77. -/
theorem echo_roundtrip_witness :
    (513 : Nat) ≤ 65535 ∧
    (parseEchoReply (ICMP_ECHO.make 513 77 []).payload).map EchoReply.id
      = some 513 ∧
    (parseEchoReply (ICMP_ECHO.make 513 77 []).payload).map EchoReply.seq
      = some 77 :=
  ⟨by decide, (echo_roundtrip 513 77 (by decide) (by decide)).1,
   (echo_roundtrip 513 77 (by decide) (by decide)).2⟩

/-- Claim C6: on every 8-byte header, `validate_echo_response` returns true
iff the parsed type is 0, the code is 0, and the identifier equals the
expected one; it returns false exactly otherwise (so a differing identifier is
never accepted), and the checksum field (bytes 2-3) and sequence number
(bytes 6-7) never influence the result. -/
theorem validate_echo_response_spec :
    ∀ (b0 b1 b2 b3 b4 b5 b6 b7 icmp_id : Nat) (address : String),
      (validate_echo_response [b0, b1, b2, b3, b4, b5, b6, b7] icmp_id address
          = some true ↔ (b0 = 0 ∧ b1 = 0 ∧ b4 * 256 + b5 = icmp_id)) ∧
      (validate_echo_response [b0, b1, b2, b3, b4, b5, b6, b7] icmp_id address
          = some false ↔ ¬ (b0 = 0 ∧ b1 = 0 ∧ b4 * 256 + b5 = icmp_id)) ∧
      (∀ c2 c3 s6 s7 : Nat,
        validate_echo_response [b0, b1, c2, c3, b4, b5, s6, s7] icmp_id address
          = validate_echo_response [b0, b1, b2, b3, b4, b5, b6, b7] icmp_id address) := by
  intro b0 b1 b2 b3 b4 b5 b6 b7 icmp_id address
  refine ⟨?_, ?_, ?_⟩
  · simp [validate_echo_response, parseEchoReply]
    try tauto
  · simp [validate_echo_response, parseEchoReply]
    try tauto
  · intro c2 c3 s6 s7
    simp [validate_echo_response, parseEchoReply]

/-- Claim C9: on the 8-byte-header-plus-payload buffer, the checksum loop
`for i in range(0, len(payload), 2)` only touches in-bounds indices `i` and
`i + 1` when the payload length is even, while for an odd payload length the
final loop index is `7 + |data|` (the largest index visited) and its
`payload[i + 1]` access hits index `8 + |data|`, one byte past the end of the
buffer. -/
theorem checksum_loop_bounds (data : List Nat) :
    (data.length % 2 = 0 →
      ∀ i ∈ checksumLoopIndices data, i + 1 < 8 + data.length) ∧
    (data.length % 2 = 1 →
      (7 + data.length) ∈ checksumLoopIndices data ∧
      (∀ i ∈ checksumLoopIndices data, i ≤ 7 + data.length) ∧
      (7 + data.length) + 1 = 8 + data.length) := by
  constructor
  · intro hpar i hi
    simp only [checksumLoopIndices, pyRangeStep2, List.mem_map, List.mem_range] at hi
    obtain ⟨j, hj, rfl⟩ := hi
    omega
  · intro hpar
    refine ⟨?_, ?_, by omega⟩
    · simp only [checksumLoopIndices, pyRangeStep2, List.mem_map, List.mem_range]
      exact ⟨(7 + data.length) / 2, by omega, by omega⟩
    · intro i hi
      simp only [checksumLoopIndices, pyRangeStep2, List.mem_map, List.mem_range] at hi
      obtain ⟨j, hj, rfl⟩ := hi
      omega

/-- Witness for C9: the even case at an empty payload (index 0 accesses
bytes 0 and 1 of the 8-byte buffer) and the odd case at payload `[7]`. -/
theorem checksum_loop_bounds_witness :
    0 + 1 < 8 + ([] : List Nat).length ∧
    (7 + [(7 : Nat)].length) ∈ checksumLoopIndices [7] ∧
    (7 + [(7 : Nat)].length) + 1 = 8 + [(7 : Nat)].length :=
  ⟨(checksum_loop_bounds []).1 (by decide) 0 (by decide),
   ((checksum_loop_bounds [7]).2 (by decide)).1,
   ((checksum_loop_bounds [7]).2 (by decide)).2.2⟩

/-- Line 122 of `send_ping`: the request is `ICMP_ECHO()` with every
constructor argument left at its default. -/
def send_ping_request : ICMP_ECHO := ICMP_ECHO.make

/-- Lines 129-130 of `send_ping`: a received packet is stripped of its 20-byte
IP header (`packet[20:28]`) and the remaining 8 bytes are validated against
the request's identifier and the sender address. -/
def send_ping_accepts (packet : List Nat) (addr : String) : Option Bool :=
  validate_echo_response ((packet.drop 20).take 8) send_ping_request.icmp_id addr

/-- Claim C10: the Echo Request sent by `send_ping` is the default packet —
identifier 0, sequence 0, empty payload — whose checksum field is the
constant `0xF7FF`; and a probe accepts exactly the replies whose stripped
8-byte header has type 0, code 0 and identifier 0, independently of the
address the reply came from. -/
theorem send_ping_default_packet :
    (send_ping_request.icmp_id = 0 ∧ send_ping_request.sequence = 0 ∧
     send_ping_request.data = [] ∧ send_ping_request.checksum = 0xF7FF) ∧
    (∀ (ip : List Nat) (b0 b1 b2 b3 b4 b5 b6 b7 : Nat) (a a' : String),
      ip.length = 20 →
      (send_ping_accepts (ip ++ [b0, b1, b2, b3, b4, b5, b6, b7]) a = some true ↔
        (b0 = 0 ∧ b1 = 0 ∧ b4 * 256 + b5 = 0)) ∧
      send_ping_accepts (ip ++ [b0, b1, b2, b3, b4, b5, b6, b7]) a =
        send_ping_accepts (ip ++ [b0, b1, b2, b3, b4, b5, b6, b7]) a') := by
  refine ⟨⟨rfl, rfl, rfl, rfl⟩, ?_⟩
  intro ip b0 b1 b2 b3 b4 b5 b6 b7 a a' hip
  have hdrop : (ip ++ [b0, b1, b2, b3, b4, b5, b6, b7]).drop 20
      = [b0, b1, b2, b3, b4, b5, b6, b7] := by
    rw [← hip, List.drop_left]
  constructor
  · rw [send_ping_accepts, hdrop]
    simp [validate_echo_response, parseEchoReply, send_ping_request, ICMP_ECHO.make]
    try tauto
  · rw [send_ping_accepts, send_ping_accepts, hdrop]
    simp [validate_echo_response, parseEchoReply]

/-- Witness for C10: a packet with a 20-byte IP header and an all-zero ICMP
header is accepted, whatever address it came from. -/
theorem send_ping_default_packet_witness :
    send_ping_accepts (List.replicate 20 0 ++ [0, 0, 0, 0, 0, 0, 0, 0])
      "10.0.0.1" = some true :=
  ((send_ping_default_packet.2 (List.replicate 20 0) 0 0 0 0 0 0 0 0
    "10.0.0.1" "10.0.0.2" (by decide)).1).mpr ⟨rfl, rfl, by decide⟩

/-! ### Subnet scanning (`subnet_queue`, lines 98-115) -/

/-- The fragment of Python's value universe needed by `subnet_queue`:
strings and (homogeneous) lists of strings. -/
inductive PyVal where
  | str : String → PyVal
  | strList : List String → PyVal
deriving DecidableEq, Repr

/-- Python `==` on such values: equal strings compare equal, equal lists
compare equal, and a `str` never equals a `list` (both operands return
`NotImplemented`, so `==` falls back to identity and yields `False`). -/
def pyEq : PyVal → PyVal → Bool
  | .str a, .str b => a == b
  | .strList a, .strList b => a == b
  | _, _ => false

/-- The console messages `subnet_queue` can print (lines 101, 108, 113),
abstracted to constructor-plus-subnet. -/
inductive Msg where
  | scanning : String → Msg
  | live : String → Msg
  | notLive : String → Msg
deriving DecidableEq, Repr

/-- Whether a message is the per-subnet not-live report of line 113. -/
def Msg.isNotLive : Msg → Bool
  | .notLive _ => true
  | _ => false

/-- Everything observable one `subnet_queue` call does: the messages printed,
the lines put on `writer_queue`, and the addresses passed to `send_ping`,
each in order of occurrence. -/
structure QueueRun where
  msgs : List Msg
  enqueued : List String
  probed : List String
deriving DecidableEq, Repr

/-- Python `str.split(sep)` over the character list: separators delimit
(possibly empty) fields, and splitting the empty string yields `[""]`. -/
def pySplitChars (sep : Char) : List Char → List (List Char)
  | [] => [[]]
  | c :: rest =>
    match pySplitChars sep rest with
    | [] => [[c]]
    | h :: t => if c = sep then [] :: h :: t else (c :: h) :: t

/-- Python `str.split(sep)` for a single-character separator. -/
def pySplit (s : String) (sep : Char) : List String :=
  (pySplitChars sep s.data).map String.mk

/-- Python `sep.join(parts)`. -/
def pyJoin (sep : String) : List String → String
  | [] => ""
  | [p] => p
  | p :: rest => p ++ sep ++ pyJoin sep rest

/-- Python `c in s` for a single-character needle. -/
def pyContains (s : String) (c : Char) : Bool := s.data.contains c

/-- Line 106: `'.'.join(subnet.split(".")[0:-1]) + suffix`. -/
def mkAddr (subnet suffix : String) : String :=
  pyJoin "." (pySplit subnet '.').dropLast ++ suffix

/-- Lines 103-104: `if "/" in subnet: subnet = subnet.split("/")[0]`. -/
def stripBase (subnet : String) : String :=
  if pyContains subnet '/' then (pySplit subnet '/').headD subnet else subnet

/-- The `for suffix in suffix_list` loop of `subnet_queue` (lines 105-113),
parametrised over the probe (`send_ping`), which may raise (`Except.error`):
on a live probe print the live line, enqueue `subnet + "/24\n"` and `break`;
otherwise fall through to line 112's check `suffix == suffix_list[:-1]`,
which compares the string `suffix` with the list `suffix_list[:-1]` and
prints the not-live line when they are "equal".  A raised error propagates
(the only handler, line 114, catches `KeyboardInterrupt` alone); the trace
printed before the raise is not modelled, only the propagation is. -/
def subnet_scan_loop (probe : String → Except String Bool) (subnet : String)
    (suffix_list : List String) : List String → Except String QueueRun
  | [] => .ok ⟨[], [], []⟩
  | suffix :: rest =>
    let address := mkAddr subnet suffix
    match probe address with
    | .error e => .error e
    | .ok true => .ok ⟨[.live subnet], [subnet ++ "/24\n"], [address]⟩
    | .ok false =>
      match subnet_scan_loop probe subnet suffix_list rest with
      | .error e => .error e
      | .ok r =>
        if pyEq (.str suffix) (.strList suffix_list.dropLast) then
          .ok ⟨.notLive subnet :: r.msgs, r.enqueued, address :: r.probed⟩
        else
          .ok ⟨r.msgs, r.enqueued, address :: r.probed⟩

/-- Function `subnet_queue(subnet, suffix_list)` (lines 98-115): default a missing
suffix list to all 256 suffixes, print the scanning line (before the `/24`
part is stripped), strip the subnet at the first `/`, and run the loop.
`subnet_queue_suffixes` is the suffix-list defaulting of lines 99-100. -/
def subnet_queue_suffixes : Option (List String) → List String
  | none => (List.range 256).map (fun i => "." ++ toString i)
  | some l => l

def subnet_queue (probe : String → Except String Bool) (subnet : String)
    (suffix_list : Option (List String)) : Except String QueueRun :=
  match subnet_scan_loop probe (stripBase subnet) (subnet_queue_suffixes suffix_list)
      (subnet_queue_suffixes suffix_list) with
  | .error e => .error e
  | .ok r => .ok ⟨.scanning subnet :: r.msgs, r.enqueued, r.probed⟩

/-- The messages of a `subnet_queue` outcome (none if it raised). -/
def msgsOf : Except String QueueRun → List Msg
  | .ok r => r.msgs
  | .error _ => []

/-- The enqueued lines of a `subnet_queue` outcome (none if it raised). -/
def enqueuedOf : Except String QueueRun → List String
  | .ok r => r.enqueued
  | .error _ => []

/-- The probed addresses of a `subnet_queue` outcome (none if it raised). -/
def probedOf : Except String QueueRun → List String
  | .ok r => r.probed
  | .error _ => []

/-! ### `send_ping` (lines 119-142) and the orchestrator (lines 219-228) -/

/-- One event the `while True` receive loop of `send_ping` can observe:
a datagram arriving, `socket.timeout` being raised with a given elapsed time,
or any other socket error being raised. -/
inductive RecvEvent where
  | packet : List Nat → String → RecvEvent
  | timeout : ℚ → RecvEvent
  | sockError : String → RecvEvent
deriving DecidableEq, Repr

/-- Line 121: the value passed to `icmp_socket.settimeout`.  The function
receives the run's configured timeout (`main` line 188 assigns it to the
module-global `timeout`) but `send_ping` never reads that global: the socket
timeout is the constant `_default_timeout`. -/
def send_ping_socket_timeout (configured_timeout : ℚ) : ℚ := default_timeout

/-- One iteration of the receive loop (lines 126-142): a datagram is
validated and answered immediately (match → `True`, mismatch → `False`);
`socket.timeout` is caught and answered `False` once the elapsed time
reaches `_default_timeout`, otherwise the loop continues; any other
socket error propagates (there is no handler for it).  `ok none` means
"keep looping". -/
def send_ping_recv_step (ev : RecvEvent) : Except String (Option Bool) :=
  match ev with
  | .packet bytes addr =>
      match send_ping_accepts bytes addr with
      | some b => .ok (some b)
      | none => .error "struct.error"
  | .timeout elapsed =>
      if default_timeout ≤ elapsed then .ok (some false) else .ok none
  | .sockError e => .error e

/-- The whole receive loop over a finite event sequence; `ok none` means the
loop is still waiting when the events run out. -/
def send_ping_run : List RecvEvent → Except String (Option Bool)
  | [] => .ok none
  | ev :: rest =>
      match send_ping_recv_step ev with
      | .ok none => send_ping_run rest
      | .ok (some b) => .ok (some b)
      | .error e => .error e

/-- Modelled from the source's use of `concurrent.futures` (lines 224-225),
whose implementation is outside this repository: `executor.map` submits one
task per subnet and returns a lazy iterator of their results; the source
discards that iterator, so an exception raised inside a task is stored in its
`Future` and never re-raised in the main thread.  `main` therefore reaches
line 228 and the interpreter exits with status 0 whatever the per-task
outcomes were — its exit status is a constant function of them. -/
def main_exit_code (task_outcomes : List (Except String Unit)) : Nat := 0

/-- The comparison on line 112 is between a string and a list, so it is
always false: the not-live branch is dead code. -/
theorem pyEq_str_strList (s : String) (l : List String) :
    pyEq (.str s) (.strList l) = false := rfl

/-- Full characterisation of the scan loop under an error-free probe: it
probes the candidate addresses in order up to and including the first live
one, and prints/enqueues the live outcome exactly when some candidate is
live.  No not-live message is ever produced (line 112's condition is dead). -/
theorem subnet_scan_loop_ok (p : String → Bool) (subnet : String)
    (all : List String) (l : List String) :
    subnet_scan_loop (fun a => .ok (p a)) subnet all l =
      .ok ⟨(if (l.map (mkAddr subnet)).any p then [Msg.live subnet] else []),
           (if (l.map (mkAddr subnet)).any p then [subnet ++ "/24\n"] else []),
           (l.map (mkAddr subnet)).takeWhile (fun a => !p a) ++
             ((l.map (mkAddr subnet)).dropWhile (fun a => !p a)).take 1⟩ := by
  induction l with
  | nil => simp [subnet_scan_loop]
  | cons s rest ih =>
      rw [subnet_scan_loop]
      cases hp : p (mkAddr subnet s) with
      | true =>
          simp [hp, List.takeWhile_cons, List.dropWhile_cons]
      | false =>
          rw [ih]
          simp [hp, pyEq_str_strList, List.takeWhile_cons, List.dropWhile_cons]

/-- Claim C5: `subnet_queue` probes the candidate addresses (base with the
last octet replaced by each suffix) strictly in list order and stops at the
first live probe, enqueueing the live subnet; concretely, over suffixes
`[".1", ".2", ".3"]` with only `".2"` live, exactly two probe calls happen
and `".3"` is never probed. -/
theorem subnet_queue_short_circuit :
    (∀ (p : String → Bool) (subnet : String) (sfx : List String),
      probedOf (subnet_queue (fun a => .ok (p a)) subnet (some sfx)) =
        (sfx.map (mkAddr (stripBase subnet))).takeWhile (fun a => !p a) ++
          ((sfx.map (mkAddr (stripBase subnet))).dropWhile (fun a => !p a)).take 1 ∧
      enqueuedOf (subnet_queue (fun a => .ok (p a)) subnet (some sfx)) =
        (if (sfx.map (mkAddr (stripBase subnet))).any p
         then [stripBase subnet ++ "/24\n"] else [])) ∧
    probedOf (subnet_queue (fun a => .ok (a == "192.168.1.2")) "192.168.1.0/24"
        (some [".1", ".2", ".3"])) = ["192.168.1.1", "192.168.1.2"] ∧
    enqueuedOf (subnet_queue (fun a => .ok (a == "192.168.1.2")) "192.168.1.0/24"
        (some [".1", ".2", ".3"])) = ["192.168.1.0/24\n"] := by
  refine ⟨?_, ?_, ?_⟩
  · intro p subnet sfx
    rw [subnet_queue]
    rw [subnet_scan_loop_ok]
    exact ⟨rfl, rfl⟩
  · rw [subnet_queue, subnet_scan_loop_ok]
    decide
  · rw [subnet_queue, subnet_scan_loop_ok]
    decide

/-- Claim C3 (evaluation): the per-subnet not-live outcome is never emitted —
line 112 compares the string `suffix` to the list `suffix_list[:-1]`, which is
always false — and when every probe is negative nothing is enqueued.  The
concrete instance runs a dead subnet `10.0.0.0/24` over suffix list `[".1"]`. -/
theorem subnet_queue_not_live_never_reported :
    (∀ (probe : String → Except String Bool) (subnet : String)
       (suffix_list : Option (List String)),
      (msgsOf (subnet_queue probe subnet suffix_list)).all
        (fun m => ! m.isNotLive) = true) ∧
    msgsOf (subnet_queue (fun _ => .ok false) "10.0.0.0/24" (some [".1"]))
      = [Msg.scanning "10.0.0.0/24"] ∧
    enqueuedOf (subnet_queue (fun _ => .ok false) "10.0.0.0/24" (some [".1"]))
      = [] := by
  have hloop : ∀ (probe : String → Except String Bool) (subnet : String)
      (all l : List String),
      (match subnet_scan_loop probe subnet all l with
       | .ok r => r.msgs.all (fun m => ! m.isNotLive) = true
       | .error _ => True) := by
    intro probe subnet all l
    induction l with
    | nil => simp [subnet_scan_loop]
    | cons s rest ih =>
        rw [subnet_scan_loop]
        cases hp : probe (mkAddr subnet s) with
        | error e => simp
        | ok b =>
            cases b with
            | true => simp [Msg.isNotLive]
            | false =>
                revert ih
                cases hrec : subnet_scan_loop probe subnet all rest with
                | error e => intro _; simp [pyEq_str_strList]
                | ok r =>
                    intro ih
                    have ih2 : (r.msgs.all fun m => ! m.isNotLive) = true := ih
                    simp only [pyEq_str_strList, Bool.false_eq_true, if_false]
                    simpa using ih2
  refine ⟨?_, ?_, ?_⟩
  · intro probe subnet suffix_list
    rw [subnet_queue]
    have := hloop probe (stripBase subnet) (subnet_queue_suffixes suffix_list)
      (subnet_queue_suffixes suffix_list)
    revert this
    cases subnet_scan_loop probe (stripBase subnet) (subnet_queue_suffixes suffix_list)
        (subnet_queue_suffixes suffix_list) with
    | error e => intro _; simp [msgsOf]
    | ok r => intro h; simpa [msgsOf, Msg.isNotLive] using h
  · decide
  · decide

/-- Claim C2 (evaluation): the receive timeout `send_ping` installs on the
raw socket is the module constant `_default_timeout = 2.0` whatever timeout
the caller configured; with a configured timeout of 5 seconds the applied
timeout is 2, not 5, and a `socket.timeout` after 2 elapsed seconds already
ends the probe with a negative answer. -/
theorem send_ping_timeout_is_fixed :
    (∀ t : ℚ, send_ping_socket_timeout t = default_timeout) ∧
    send_ping_socket_timeout 5 = 2 ∧ (2 : ℚ) ≠ 5 ∧
    send_ping_run [RecvEvent.timeout 2] = .ok (some false) := by
  refine ⟨fun t => rfl, rfl, by norm_num, ?_⟩
  rw [send_ping_run, send_ping_recv_step]
  norm_num [default_timeout]

/-- Claim C4 (evaluation): a raw-socket error other than a receive timeout
propagates out of `send_ping` (it is not mapped to a "not live" `False`) and
out of `subnet_queue` (whose only handler catches `KeyboardInterrupt`), but
the orchestrator never consumes the iterator returned by `executor.map`, so
the exception stays in its `Future` and the process still exits 0. -/
theorem socket_error_not_fatal_to_run :
    send_ping_run [RecvEvent.sockError "PermissionError"] = .error "PermissionError" ∧
    subnet_queue (fun _ => .error "PermissionError") "10.0.0.0/24" (some [".1", ".2"])
      = .error "PermissionError" ∧
    main_exit_code [.error "PermissionError"] = 0 ∧
    (∀ outcomes : List (Except String Unit), main_exit_code outcomes = 0) :=
  ⟨rfl, rfl, rfl, fun _ => rfl⟩

/-! ### The writer thread (`file_writer`, lines 146-151) and shutdown
(lines 219-228) as a transition system

Producers are the worker threads calling `writer_queue.put` (line 109); the
writer thread loops `get` / `write` / `flush` / `task_done` (lines 148-151);
the orchestrator calls `writer_queue.join()` (line 227) — which, per the
`queue.Queue` contract, blocks until `task_done` has been called once per
`put` — and only then leaves the `with open(...)` block, closing the handle.
-/

/-- Where the writer thread is inside its loop body: waiting in `get`, or
holding a dequeued line before/after the `write` and after the `flush`. -/
inductive WriterPC where
  | idle
  | got : String → WriterPC
  | wrote : String → WriterPC
  | flushedLine : String → WriterPC
deriving DecidableEq, Repr

/-- Global state of the write path: the lines producers have yet to enqueue,
the queue contents, the `Queue` unfinished-task counter, the writer thread's
position, the lines written to the handle, how many of them reached the disk
via `flush`, and whether the handle has been closed. -/
structure WriterState where
  toProduce : List String
  queue : List String
  unfinished : Nat
  pc : WriterPC
  written : List String
  flushedCount : Nat
  closed : Bool
deriving DecidableEq, Repr

/-- Interleaved small-step semantics of producers, the writer thread and the
orchestrator's shutdown.  `put` appends to the queue and bumps the
unfinished-task counter; `get` dequeues the head; `write` appends the held
line to the handle; `flush` marks everything written so far as durable;
`task_done` decrements the counter and returns the writer to `get`; `close`
models `writer_queue.join()` returning (producers done and counter zero)
followed by the `with` block closing the handle. -/
inductive WriterStep : WriterState → WriterState → Prop where
  | put (l : String) (tp q : List String) (u : Nat) (pc : WriterPC)
      (w : List String) (f : Nat) :
      WriterStep ⟨l :: tp, q, u, pc, w, f, false⟩
        ⟨tp, q ++ [l], u + 1, pc, w, f, false⟩
  | get (tp : List String) (l : String) (q : List String) (u : Nat)
      (w : List String) (f : Nat) :
      WriterStep ⟨tp, l :: q, u, .idle, w, f, false⟩
        ⟨tp, q, u, .got l, w, f, false⟩
  | write (tp q : List String) (u : Nat) (l : String) (w : List String) (f : Nat) :
      WriterStep ⟨tp, q, u, .got l, w, f, false⟩
        ⟨tp, q, u, .wrote l, w ++ [l], f, false⟩
  | flush (tp q : List String) (u : Nat) (l : String) (w : List String) (f : Nat) :
      WriterStep ⟨tp, q, u, .wrote l, w, f, false⟩
        ⟨tp, q, u, .flushedLine l, w, w.length, false⟩
  | task_done (tp q : List String) (u : Nat) (l : String) (w : List String) (f : Nat) :
      WriterStep ⟨tp, q, u + 1, .flushedLine l, w, f, false⟩
        ⟨tp, q, u, .idle, w, f, false⟩
  | close (q : List String) (pc : WriterPC) (w : List String) (f : Nat) :
      WriterStep ⟨[], q, 0, pc, w, f, false⟩ ⟨[], q, 0, pc, w, f, true⟩

/-- Initial state: the run's confirmed-live lines still to be produced, an
empty queue, an idle writer, an open empty handle. -/
def writerInit (items : List String) : WriterState :=
  ⟨items, [], 0, .idle, [], 0, false⟩

/-- States the write path can reach during a run producing `items`. -/
def WriterReachable (items : List String) (s : WriterState) : Prop :=
  Relation.ReflTransGen WriterStep (writerInit items) s

/-- The line held by the writer that is not yet in `written` (only between
`get` and `write`). -/
def pcHold : WriterPC → List String
  | .got l => [l]
  | _ => []

/-- How many dequeued-but-not-`task_done` lines the writer holds. -/
def pcWeight : WriterPC → Nat
  | .idle => 0
  | _ => 1

/-- Inductive invariant: the unfinished counter counts queued plus held
lines; every line is in exactly one of written / held / queued / unproduced,
in order; at most the most recent write is unflushed (and none is between
`flush` and the next `write`); a closed state has nothing left to produce
and a zero counter. -/
def WriterInv (items : List String) (s : WriterState) : Prop :=
  s.unfinished = s.queue.length + pcWeight s.pc ∧
  items = s.written ++ pcHold s.pc ++ s.queue ++ s.toProduce ∧
  (match s.pc with
   | .wrote _ => s.flushedCount + 1 = s.written.length
   | _ => s.flushedCount = s.written.length) ∧
  (s.closed = true → s.toProduce = [] ∧ s.unfinished = 0)

theorem writerInv_init (items : List String) : WriterInv items (writerInit items) := by
  refine ⟨rfl, by simp [writerInit, pcHold], rfl, ?_⟩
  intro h
  simp [writerInit] at h

theorem writerInv_step {items : List String} {s s' : WriterState}
    (hinv : WriterInv items s) (hstep : WriterStep s s') : WriterInv items s' := by
  obtain ⟨h1, h2, h3, h4⟩ := hinv
  cases hstep with
  | put l tp q u pc w f =>
      refine ⟨?_, ?_, ?_, by intro h; simp at h⟩
      · simp at h1 ⊢; omega
      · simp [pcHold] at h2 ⊢
        rw [h2]
      · simpa using h3
  | get tp l q u w f =>
      refine ⟨?_, ?_, ?_, by intro h; simp at h⟩
      · simp [pcWeight] at h1 ⊢; omega
      · simp [pcHold] at h2 ⊢; simpa using h2
      · simpa [pcWeight] using h3
  | write tp q u l w f =>
      refine ⟨?_, ?_, ?_, by intro h; simp at h⟩
      · simpa [pcWeight] using h1
      · simp [pcHold] at h2 ⊢; simpa using h2
      · simp at h3 ⊢; omega
  | flush tp q u l w f =>
      refine ⟨?_, ?_, ?_, by intro h; simp at h⟩
      · simpa [pcWeight] using h1
      · simpa [pcHold] using h2
      · simp
  | task_done tp q u l w f =>
      refine ⟨?_, ?_, ?_, by intro h; simp at h⟩
      · simp [pcWeight] at h1 ⊢; omega
      · simpa [pcHold] using h2
      · simpa using h3
  | close q pc w f =>
      exact ⟨h1, h2, h3, fun _ => ⟨rfl, rfl⟩⟩

theorem writerInv_reachable {items : List String} {s : WriterState}
    (h : WriterReachable items s) : WriterInv items s := by
  induction h with
  | refl => exact writerInv_init items
  | tail hsteps hstep ih => exact writerInv_step ih hstep

/-- Claim C7: in every reachable state the writer has flushed all but at most
its single in-progress write (flush-after-every-write), and once the handle
is closed the queue has fully drained: every line any worker enqueued has
been written to the handle, in arrival order, and flushed. -/
theorem writer_drain_before_close (items : List String) (s : WriterState)
    (h : WriterReachable items s) :
    s.written.length ≤ s.flushedCount + 1 ∧
    (s.closed = true →
      s.written = items ∧ s.flushedCount = items.length ∧ s.queue = []) := by
  obtain ⟨h1, h2, h3, h4⟩ := writerInv_reachable h
  constructor
  · revert h3
    cases s.pc <;> (intro h3; simp at h3; omega)
  · intro hc
    obtain ⟨htp, hu⟩ := h4 hc
    have hq : s.queue = [] := by
      rw [hu] at h1
      exact List.length_eq_zero.mp (by omega)
    have hpc : pcWeight s.pc = 0 := by rw [hu] at h1; omega
    have hidle : s.pc = .idle := by
      revert hpc
      cases s.pc <;> simp [pcWeight]
    rw [htp, hq, hidle] at h2
    simp [pcHold] at h2
    refine ⟨h2.symm, ?_, hq⟩
    rw [hidle] at h3
    simp at h3
    rw [h3, h2]

/-- Witness for C7: a complete run over the single line `10.0.0.0/24` —
put, get, write, flush, task_done, then join-and-close — ends closed with
that line written and flushed. -/
theorem writer_drain_before_close_witness :
    (⟨[], [], 0, .idle, ["10.0.0.0/24\n"], 1, true⟩ : WriterState).written
        = ["10.0.0.0/24\n"] ∧
    (⟨[], [], 0, .idle, ["10.0.0.0/24\n"], 1, true⟩ : WriterState).flushedCount
        = ["10.0.0.0/24\n"].length := by
  have hreach : WriterReachable ["10.0.0.0/24\n"]
      ⟨[], [], 0, .idle, ["10.0.0.0/24\n"], 1, true⟩ := by
    refine Relation.ReflTransGen.tail (Relation.ReflTransGen.tail
      (Relation.ReflTransGen.tail (Relation.ReflTransGen.tail
        (Relation.ReflTransGen.tail (Relation.ReflTransGen.tail
          Relation.ReflTransGen.refl
          (WriterStep.put "10.0.0.0/24\n" [] [] 0 .idle [] 0))
        (WriterStep.get [] "10.0.0.0/24\n" [] 1 [] 0))
      (WriterStep.write [] [] 1 "10.0.0.0/24\n" [] 0))
      (WriterStep.flush [] [] 1 "10.0.0.0/24\n" ["10.0.0.0/24\n"] 0))
      (WriterStep.task_done [] [] 0 "10.0.0.0/24\n" ["10.0.0.0/24\n"] 1))
      (WriterStep.close [] .idle ["10.0.0.0/24\n"] 1)
  have := (writer_drain_before_close ["10.0.0.0/24\n"] _ hreach).2 rfl
  exact ⟨this.1, this.2.1⟩

end IonPing
